import Mathlib

/-!
Shallow embedding of the ChibiOS objects-cache module (`chobjcaches.c`).

The module manipulates three kinds of memory cells through raw pointers:
object records (`oc_object_t`), hash-bucket headers (`oc_hash_header_t`,
a prefix of `oc_object_t` reached through casts) and the LRU header
embedded in the controller (`ocp->lru`, also reached through an
`(oc_object_t *)` cast).  We model memory as a partial map from abstract
pointers to a single record type carrying all fields; header cells simply
never use the non-link fields.  Reading or writing through a dangling or
NULL pointer yields `none`, which the interpreters turn into the `ub`
outcome.

Loops are interpreted with explicit fuel.  Blocking semaphore waits
(`chSemWaitS`) are modelled for a single running thread: if the
decremented counter is negative there is no other thread left to signal
it, so the call can never resume and the interpreter returns the
`blocked` outcome together with the state at the moment of suspension.
Semaphores are modelled by their signed counter (`cnt_t`), the FIFO queue
being abstracted by the negative part of the counter, exactly as the
module itself observes them through `chSemGetCounterI`.

Debug assertions (`chDbgAssert` / `chDbgCheck`) are compile-time optional
in ChibiOS; the interpreters take a `dbg : Bool` flag.  When `dbg` is
true the assertion's condition is evaluated (possibly dereferencing a
pointer) and a false condition gives the `halt` outcome; when `dbg` is
false the condition is not evaluated at all, as in a release build.
-/

namespace ObjCaches

/-- Abstract pointers: NULL, the `i`-th object record (`&ocp->objp[i]`),
the `i`-th hash bucket header (`&ocp->hashp[i]`) and the LRU header
embedded in the controller (`&ocp->lru`). -/
inductive Ptr where
  | null
  | obj (i : Nat)
  | hashHdr (i : Nat)
  | lruHdr
deriving DecidableEq, Repr

/-- One memory cell.  For object records every field is meaningful; for
hash-bucket headers and the LRU header only the link fields are ever
used by the code. -/
structure oc_object where
  hash_next : Ptr
  hash_prev : Ptr
  lru_next  : Ptr
  lru_prev  : Ptr
  obj_group : Nat
  obj_key   : Nat
  obj_flags : Nat
  obj_sem   : Int
  data      : Ptr
deriving DecidableEq, Repr

/-- The `objects_cache_t` controller.  `cache_sem` and `lru_sem` are the
two controller-level semaphore counters; `mem` is the heap holding the
object records, the hash headers and the LRU header. -/
structure objects_cache where
  cache_sem : Int
  lru_sem   : Int
  hashn     : Nat
  objn      : Nat
  readf     : Nat
  writef    : Nat
  mem       : Ptr → Option oc_object

/-- Modelled from the spec: the object-state flag bits (`IN_LRU`,
`IN_HASH`, `CACHE_HIT`, `ERROR`, `MODIFIED`).  The header defining the
numeric values is not part of the excerpt; the code only needs them to
be distinct single bits of a 32-bit word. -/
def OC_FLAG_INLRU : Nat := 1

/-- Modelled from the spec: the `IN_HASH` flag bit. -/
def OC_FLAG_INHASH : Nat := 2

/-- Modelled from the spec: the `CACHE_HIT` flag bit. -/
def OC_FLAG_CACHEHIT : Nat := 4

/-- Modelled from the spec: the `ERROR` flag bit. -/
def OC_FLAG_ERROR : Nat := 8

/-- Modelled from the spec: the `MODIFIED` flag bit. -/
def OC_FLAG_MODIFIED : Nat := 16

/-- Modelled from the spec: the reserved `NO_GROUP` sentinel group
identifier ("any free buffer"). -/
def OC_NO_GROUP : Nat := 0

/-- Clearing flag bits with C's `flags &= ~bit` on a 32-bit unsigned. -/
def clearBits (f b : Nat) : Nat := f &&& (4294967295 ^^^ b)

/-- Read a field of the record a pointer designates; `none` on NULL or a
dangling pointer. -/
def readFld {α : Type} (g : oc_object → α) (s : objects_cache) (p : Ptr) : Option α :=
  (s.mem p).map g

def readHashNext (s : objects_cache) (p : Ptr) : Option Ptr := readFld oc_object.hash_next s p
def readHashPrev (s : objects_cache) (p : Ptr) : Option Ptr := readFld oc_object.hash_prev s p
def readLruNext (s : objects_cache) (p : Ptr) : Option Ptr := readFld oc_object.lru_next s p
def readLruPrev (s : objects_cache) (p : Ptr) : Option Ptr := readFld oc_object.lru_prev s p
def readFlags (s : objects_cache) (p : Ptr) : Option Nat := readFld oc_object.obj_flags s p
def readGroup (s : objects_cache) (p : Ptr) : Option Nat := readFld oc_object.obj_group s p
def readKey (s : objects_cache) (p : Ptr) : Option Nat := readFld oc_object.obj_key s p
def readSem (s : objects_cache) (p : Ptr) : Option Int := readFld oc_object.obj_sem s p

/-- Update the record a pointer designates; `none` on NULL or a dangling
pointer. -/
def writeMem (s : objects_cache) (p : Ptr) (f : oc_object → oc_object) :
    Option objects_cache :=
  match s.mem p with
  | none => none
  | some o => some { s with mem := Function.update s.mem p (some (f o)) }

/-- The state produced by a successful `writeMem`: the designated cell
replaced. -/
def setMem (s : objects_cache) (p : Ptr) (o : oc_object) : objects_cache :=
  { s with mem := Function.update s.mem p (some o) }

/-- Outcome of running a piece of the module for one thread.
`ok` is a normal return; `halt` a failed debug assertion (system halt);
`ub` a NULL/dangling dereference; `blocked s` a `chSemWaitS` that can
never be signalled again (state at suspension time); `spin` fuel
exhaustion (the code is still looping); `noret` control falling off the
end of a value-returning function. -/
inductive CResult (α : Type) where
  | ok (a : α)
  | halt
  | ub
  | blocked (s : objects_cache)
  | spin
  | noret

/-- Model of `chDbgAssert` / `chDbgCheck`: with `dbg` set the condition is
evaluated (a `none` condition means evaluating it dereferenced an
invalid pointer) and a false condition halts; with `dbg` clear the
condition is not evaluated, as in a release build. -/
def dbgAssert {α : Type} (dbg : Bool) (cond : Option Bool) (k : CResult α) : CResult α :=
  if dbg then
    match cond with
    | none => CResult.ub
    | some true => k
    | some false => CResult.halt
  else k

/-- The default `OC_HASH_FUNCTION`:
`((unsigned)(group) + (unsigned)(key)) & ((unsigned)(ocp)->hashn - 1U)`,
with the 32-bit wraparound of the unsigned sum made explicit. -/
def OC_HASH_FUNCTION (s : objects_cache) (group key : Nat) : Nat :=
  ((group + key) % 4294967296) &&& (s.hashn - 1)

/-- The `HASH_INSERT` macro, one statement at a time. -/
def HASH_INSERT (s : objects_cache) (objp : Ptr) (group key : Nat) :
    Option objects_cache :=
  let hhp := Ptr.hashHdr (OC_HASH_FUNCTION s group key)
  (readHashNext s hhp).bind fun n1 =>
  (writeMem s objp fun o => { o with hash_next := n1 }).bind fun s1 =>
  (writeMem s1 objp fun o => { o with hash_prev := hhp }).bind fun s2 =>
  (readHashNext s2 hhp).bind fun n2 =>
  (writeMem s2 n2 fun o => { o with hash_prev := objp }).bind fun s3 =>
  writeMem s3 hhp fun o => { o with hash_next := objp }

/-- The `HASH_REMOVE` macro, one statement at a time. -/
def HASH_REMOVE (s : objects_cache) (objp : Ptr) : Option objects_cache :=
  (readHashPrev s objp).bind fun p1 =>
  (readHashNext s objp).bind fun n1 =>
  (writeMem s p1 fun o => { o with hash_next := n1 }).bind fun s1 =>
  (readHashNext s1 objp).bind fun n2 =>
  (readHashPrev s1 objp).bind fun p2 =>
  writeMem s1 n2 fun o => { o with hash_prev := p2 }

/-- The `LRU_INSERT_HEAD` macro. -/
def LRU_INSERT_HEAD (s : objects_cache) (objp : Ptr) : Option objects_cache :=
  (readLruNext s Ptr.lruHdr).bind fun n1 =>
  (writeMem s objp fun o => { o with lru_next := n1 }).bind fun s1 =>
  (writeMem s1 objp fun o => { o with lru_prev := Ptr.lruHdr }).bind fun s2 =>
  (readLruNext s2 Ptr.lruHdr).bind fun n2 =>
  (writeMem s2 n2 fun o => { o with lru_prev := objp }).bind fun s3 =>
  writeMem s3 Ptr.lruHdr fun o => { o with lru_next := objp }

/-- The `LRU_INSERT_TAIL` macro. -/
def LRU_INSERT_TAIL (s : objects_cache) (objp : Ptr) : Option objects_cache :=
  (readLruPrev s Ptr.lruHdr).bind fun p1 =>
  (writeMem s objp fun o => { o with lru_prev := p1 }).bind fun s1 =>
  (writeMem s1 objp fun o => { o with lru_next := Ptr.lruHdr }).bind fun s2 =>
  (readLruPrev s2 Ptr.lruHdr).bind fun p2 =>
  (writeMem s2 p2 fun o => { o with lru_next := objp }).bind fun s3 =>
  writeMem s3 Ptr.lruHdr fun o => { o with lru_prev := objp }

/-- The `LRU_REMOVE` macro. -/
def LRU_REMOVE (s : objects_cache) (objp : Ptr) : Option objects_cache :=
  (readLruPrev s objp).bind fun p1 =>
  (readLruNext s objp).bind fun n1 =>
  (writeMem s p1 fun o => { o with lru_next := n1 }).bind fun s1 =>
  (readLruNext s1 objp).bind fun n2 =>
  (readLruPrev s1 objp).bind fun p2 =>
  writeMem s1 n2 fun o => { o with lru_prev := p2 }

/-- The scanning loop of `hash_get`: walk the bucket's circular sibling
list until back at the header, returning the first `(group,key)` match. -/
def hash_get_scan (s : objects_cache) (group key : Nat) (hhp : Ptr) :
    Nat → Ptr → CResult (Option Ptr)
  | 0, _ => CResult.spin
  | fuel + 1, objp =>
    if objp = hhp then CResult.ok none
    else
      match readKey s objp, readGroup s objp with
      | some k, some g =>
        if k = key ∧ g = group then CResult.ok (some objp)
        else
          match readHashNext s objp with
          | some nxt => hash_get_scan s group key hhp fuel nxt
          | none => CResult.ub
      | _, _ => CResult.ub

/-- The `hash_get` bucket lookup.  `ok (some p)` is a cache hit,
`ok none` is the NULL return on a miss. -/
def hash_get (s : objects_cache) (group key : Nat) (fuel : Nat) :
    CResult (Option Ptr) :=
  let hhp := Ptr.hashHdr (OC_HASH_FUNCTION s group key)
  match readHashNext s hhp with
  | none => CResult.ub
  | some start => hash_get_scan s group key hhp fuel start

/-- The `while (true)` retry loop of `chCacheGetObject` for a named
group, one iteration per unit of fuel.  Follows the source statement by
statement, including the debug assertion placed before the NULL check
and the absence of any `return` on the hit-unowned and miss paths. -/
def getLoop (group key : Nat) (dbg : Bool) :
    Nat → objects_cache → CResult (Ptr × objects_cache)
  | 0, _ => CResult.spin
  | fuel + 1, s =>
    match hash_get s group key (fuel + 1) with
    | CResult.halt => CResult.halt
    | CResult.ub => CResult.ub
    | CResult.blocked s' => CResult.blocked s'
    | CResult.spin => CResult.spin
    | CResult.noret => CResult.noret
    | CResult.ok res =>
      let objp : Ptr := match res with | some p => p | none => Ptr.null
      dbgAssert dbg ((readFlags s objp).map fun f => f &&& OC_FLAG_INHASH != 0) <|
      if objp ≠ Ptr.null then
        match readSem s objp with
        | none => CResult.ub
        | some cnt =>
          if cnt > 0 then
            dbgAssert dbg ((readFlags s objp).map fun f => f &&& OC_FLAG_INLRU != 0) <|
            match LRU_REMOVE s objp with
            | none => CResult.ub
            | some s1 =>
              match writeMem s1 objp (fun o =>
                  { o with obj_flags := clearBits o.obj_flags OC_FLAG_INLRU }) with
              | none => CResult.ub
              | some s2 =>
                match writeMem s2 objp (fun o => { o with obj_sem := o.obj_sem - 1 }) with
                | none => CResult.ub
                | some s3 => getLoop group key dbg fuel s3
          else
            dbgAssert dbg ((readFlags s objp).map fun f => f &&& OC_FLAG_INLRU == 0) <|
            match writeMem s objp (fun o => { o with obj_sem := o.obj_sem - 1 }) with
            | none => CResult.ub
            | some s1 =>
              match readSem s1 objp with
              | none => CResult.ub
              | some cnt2 =>
                if cnt2 < 0 then CResult.blocked s1
                else CResult.ok (objp, s1)
      else
        if s.lru_sem - 1 < 0 then CResult.blocked { s with lru_sem := s.lru_sem - 1 }
        else
          let s1 : objects_cache := { s with lru_sem := s.lru_sem - 1 }
          match readLruPrev s1 Ptr.lruHdr with
          | none => CResult.ub
          | some tl =>
            dbgAssert dbg ((readFlags s1 tl).map fun f => f &&& OC_FLAG_INLRU != 0) <|
            dbgAssert dbg ((readSem s1 tl).map fun c => c == 1) <|
            match LRU_REMOVE s1 tl with
            | none => CResult.ub
            | some s2 =>
              match writeMem s2 tl (fun o =>
                  { o with obj_flags := clearBits o.obj_flags OC_FLAG_INLRU }) with
              | none => CResult.ub
              | some s3 =>
                match writeMem s3 tl (fun o => { o with obj_sem := o.obj_sem - 1 }) with
                | none => CResult.ub
                | some s4 =>
                  match writeMem s4 tl (fun o => { o with obj_group := group }) with
                  | none => CResult.ub
                  | some s5 =>
                    match writeMem s5 tl (fun o => { o with obj_key := key }) with
                    | none => CResult.ub
                    | some s6 =>
                      match writeMem s6 tl (fun o =>
                          { o with obj_flags := o.obj_flags ||| OC_FLAG_INHASH }) with
                      | none => CResult.ub
                      | some s7 =>
                        match HASH_INSERT s7 tl group key with
                        | none => CResult.ub
                        | some s8 => getLoop group key dbg fuel s8

/-- Model of `chCacheGetObject`.  The `group == OC_NO_GROUP` branch of the source
is an empty block after which control falls off the end of the
value-returning function, hence `noret`. -/
def chCacheGetObject (fuel : Nat) (s : objects_cache) (group key : Nat)
    (dbg : Bool) : CResult (Ptr × objects_cache) :=
  if group = OC_NO_GROUP then CResult.noret
  else getLoop group key dbg fuel s

/-- Model of `chCacheReleaseObjectI`, statement by statement. -/
def chCacheReleaseObjectI (s : objects_cache) (objp : Ptr) (dbg : Bool) :
    CResult objects_cache :=
  dbgAssert dbg ((readFlags s objp).map fun f => f &&& OC_FLAG_INLRU == 0) <|
  dbgAssert dbg ((readFlags s objp).map fun f => f &&& OC_FLAG_INHASH != 0) <|
  dbgAssert dbg ((readSem s objp).map fun c => c ≤ 0) <|
  match readFlags s objp with
  | none => CResult.ub
  | some f =>
    if f &&& OC_FLAG_ERROR != 0 then
      match HASH_REMOVE s objp with
      | none => CResult.ub
      | some s1 =>
        match LRU_INSERT_TAIL s1 objp with
        | none => CResult.ub
        | some s2 =>
          match writeMem s2 objp (fun o =>
              { o with obj_flags := OC_FLAG_INLRU, obj_group := 0, obj_key := 0 }) with
          | none => CResult.ub
          | some s3 => CResult.ok s3
    else
      match readSem s objp with
      | none => CResult.ub
      | some c =>
        if c < 0 then
          match writeMem s objp (fun o => { o with obj_sem := o.obj_sem + 1 }) with
          | none => CResult.ub
          | some s1 => CResult.ok s1
        else CResult.ok s

/-- The hash-header initialization loop of `chCacheObjectInit`.  The
loop variable is the pointer `hashp`, modelled by the index `h`; the
source's loop body never advances it. -/
def initHashLoop : Nat → Nat → objects_cache → CResult objects_cache
  | 0, _, _ => CResult.spin
  | fuel + 1, h, s =>
    if h < s.hashn then
      match writeMem s (Ptr.hashHdr h) (fun o =>
          { o with hash_next := Ptr.hashHdr h, hash_prev := Ptr.hashHdr h }) with
      | none => CResult.ub
      | some s1 => initHashLoop fuel h s1
    else CResult.ok s

/-- The object-record initialization loop of `chCacheObjectInit`.  As in
the source, the loop body never advances the pointer `objp`, modelled by
the index `j`. -/
def initObjLoop : Nat → Nat → objects_cache → CResult objects_cache
  | 0, _, _ => CResult.spin
  | fuel + 1, j, s =>
    if j < s.objn then
      match writeMem s (Ptr.obj j) (fun o => { o with obj_sem := 1 }) with
      | none => CResult.ub
      | some s1 =>
        match LRU_INSERT_HEAD s1 (Ptr.obj j) with
        | none => CResult.ub
        | some s2 =>
          match writeMem s2 (Ptr.obj j) (fun o =>
              { o with obj_group := 0, obj_key := 0,
                       obj_flags := OC_FLAG_INLRU, data := Ptr.null }) with
          | none => CResult.ub
          | some s3 => initObjLoop fuel j s3
    else CResult.ok s

/-- The controller state after the field assignments at the top of
`chCacheObjectInit`: both controller semaphores initialized
(`cache_sem` to 1, `lru_sem` to `objn`) and the configuration stored. -/
def mkCache (hashn objn readf writef : Nat) (m : Ptr → Option oc_object) :
    objects_cache :=
  { cache_sem := 1, lru_sem := (objn : Int), hashn := hashn, objn := objn,
    readf := readf, writef := writef, mem := m }

/-- Model of `chCacheObjectInit`.  `mem0` is the (uninitialized) memory holding
the hash-header array, the object array and the controller's LRU header.
The debug check's NULL tests are not representable (the buffers exist by
construction); the arithmetic conditions are checked as in the source. -/
def chCacheObjectInit (fuel : Nat) (dbg : Bool) (hashn objn readf writef : Nat)
    (mem0 : Ptr → Option oc_object) : CResult objects_cache :=
  dbgAssert dbg (some ((hashn &&& (hashn - 1) == 0) &&
      (decide (0 < objn) && decide (objn ≤ hashn)))) <|
  match writeMem (mkCache hashn objn readf writef mem0) Ptr.lruHdr (fun o =>
      { o with hash_next := Ptr.null, hash_prev := Ptr.null,
               lru_next := Ptr.lruHdr, lru_prev := Ptr.lruHdr }) with
  | none => CResult.ub
  | some s1 =>
    match initHashLoop fuel 0 s1 with
    | CResult.ok s2 => initObjLoop fuel 0 s2
    | r => r

end ObjCaches

namespace ObjCaches

/-- Extract the value of a normal return. -/
def okVal {α : Type} : CResult α → Option α
  | CResult.ok a => some a
  | _ => none

/-- Extract the state at the moment a thread blocked forever. -/
def blockedState {α : Type} : CResult α → Option objects_cache
  | CResult.blocked s => some s
  | _ => none

/-- Extract the state returned by a state-valued operation. -/
def okState : CResult objects_cache → Option objects_cache
  | CResult.ok s => some s
  | _ => none

/-- Positional builder for memory cells (the `data` handle is NULL). -/
def mkCell (hn hp ln lp : Ptr) (g k fl : Nat) (sem : Int) : oc_object :=
  { hash_next := hn, hash_prev := hp, lru_next := ln, lru_prev := lp,
    obj_group := g, obj_key := k, obj_flags := fl, obj_sem := sem, data := Ptr.null }

/-- A one-object, one-bucket cache in its post-initialization state:
object 0 is free-unnamed (`IN_LRU`, semaphore 1) and the only hash
bucket is empty.  Any lookup for a named identity misses here. -/
def memMiss : Ptr → Option oc_object
  | Ptr.lruHdr => some (mkCell Ptr.null Ptr.null (Ptr.obj 0) (Ptr.obj 0) 0 0 0 0)
  | Ptr.hashHdr 0 => some (mkCell (Ptr.hashHdr 0) (Ptr.hashHdr 0) Ptr.null Ptr.null 0 0 0 0)
  | Ptr.obj 0 => some (mkCell Ptr.null Ptr.null Ptr.lruHdr Ptr.lruHdr 0 0 1 1)
  | _ => none

def sMiss : objects_cache :=
  { cache_sem := 1, lru_sem := 1, hashn := 1, objn := 1, readf := 0, writef := 0,
    mem := memMiss }

/-- A one-object, one-bucket cache holding identity `(1,1)` unowned:
object 0 is in the hash bucket, in the LRU, semaphore 1. -/
def memHit : Ptr → Option oc_object
  | Ptr.lruHdr => some (mkCell Ptr.null Ptr.null (Ptr.obj 0) (Ptr.obj 0) 0 0 0 0)
  | Ptr.hashHdr 0 => some (mkCell (Ptr.obj 0) (Ptr.obj 0) Ptr.null Ptr.null 0 0 0 0)
  | Ptr.obj 0 => some (mkCell (Ptr.hashHdr 0) (Ptr.hashHdr 0) Ptr.lruHdr Ptr.lruHdr 1 1 3 1)
  | _ => none

def sHit : objects_cache :=
  { cache_sem := 1, lru_sem := 1, hashn := 1, objn := 1, readf := 0, writef := 0,
    mem := memHit }

/-- A one-object, two-bucket cache whose object 0 is free-cached for
identity `(1,1)` with `IN_LRU|IN_HASH|CACHE_HIT` (the documented
"caching an object not owned" state) in bucket 0; bucket 1 is empty.
A request for `(1,2)` hashes to bucket 1 and therefore misses, evicting
object 0 from the LRU tail. -/
def memStale : Ptr → Option oc_object
  | Ptr.lruHdr => some (mkCell Ptr.null Ptr.null (Ptr.obj 0) (Ptr.obj 0) 0 0 0 0)
  | Ptr.hashHdr 0 => some (mkCell (Ptr.obj 0) (Ptr.obj 0) Ptr.null Ptr.null 0 0 0 0)
  | Ptr.hashHdr 1 => some (mkCell (Ptr.hashHdr 1) (Ptr.hashHdr 1) Ptr.null Ptr.null 0 0 0 0)
  | Ptr.obj 0 => some (mkCell (Ptr.hashHdr 0) (Ptr.hashHdr 0) Ptr.lruHdr Ptr.lruHdr 1 1 7 1)
  | _ => none

def sStale : objects_cache :=
  { cache_sem := 1, lru_sem := 1, hashn := 2, objn := 1, readf := 0, writef := 0,
    mem := memStale }

/-- A one-object cache whose object 0 is owned (`semaphore 0`), indexed
in bucket 0 under `(1,1)`, flagged `IN_HASH|ERROR`; the LRU is empty and
the pool-wide free counter is 0, so the free-counter invariant holds
before the release. -/
def memErr : Ptr → Option oc_object
  | Ptr.lruHdr => some (mkCell Ptr.null Ptr.null Ptr.lruHdr Ptr.lruHdr 0 0 0 0)
  | Ptr.hashHdr 0 => some (mkCell (Ptr.obj 0) (Ptr.obj 0) Ptr.null Ptr.null 0 0 0 0)
  | Ptr.obj 0 => some (mkCell (Ptr.hashHdr 0) (Ptr.hashHdr 0) Ptr.null Ptr.null 1 1 10 0)
  | _ => none

def sErr : objects_cache :=
  { cache_sem := 1, lru_sem := 0, hashn := 1, objn := 1, readf := 0, writef := 0,
    mem := memErr }

/-- Like `sErr` but with one thread queued on the object's ownership
semaphore (counter -1). -/
def memWait : Ptr → Option oc_object
  | Ptr.lruHdr => some (mkCell Ptr.null Ptr.null Ptr.lruHdr Ptr.lruHdr 0 0 0 0)
  | Ptr.hashHdr 0 => some (mkCell (Ptr.obj 0) (Ptr.obj 0) Ptr.null Ptr.null 0 0 0 0)
  | Ptr.obj 0 => some (mkCell (Ptr.hashHdr 0) (Ptr.hashHdr 0) Ptr.null Ptr.null 1 1 10 (-1))
  | _ => none

def sWait : objects_cache :=
  { cache_sem := 1, lru_sem := 0, hashn := 1, objn := 1, readf := 0, writef := 0,
    mem := memWait }

/-- Owned object `(1,1)` with `IN_HASH` only (no error) and one queued
waiter (semaphore -1). -/
def memHand : Ptr → Option oc_object
  | Ptr.lruHdr => some (mkCell Ptr.null Ptr.null Ptr.lruHdr Ptr.lruHdr 0 0 0 0)
  | Ptr.hashHdr 0 => some (mkCell (Ptr.obj 0) (Ptr.obj 0) Ptr.null Ptr.null 0 0 0 0)
  | Ptr.obj 0 => some (mkCell (Ptr.hashHdr 0) (Ptr.hashHdr 0) Ptr.null Ptr.null 1 1 2 (-1))
  | _ => none

def sHand : objects_cache :=
  { cache_sem := 1, lru_sem := 0, hashn := 1, objn := 1, readf := 0, writef := 0,
    mem := memHand }

/-- Owned object `(1,1)` with `IN_HASH` only, no error, no waiters
(semaphore 0). -/
def memNoW : Ptr → Option oc_object
  | Ptr.lruHdr => some (mkCell Ptr.null Ptr.null Ptr.lruHdr Ptr.lruHdr 0 0 0 0)
  | Ptr.hashHdr 0 => some (mkCell (Ptr.obj 0) (Ptr.obj 0) Ptr.null Ptr.null 0 0 0 0)
  | Ptr.obj 0 => some (mkCell (Ptr.hashHdr 0) (Ptr.hashHdr 0) Ptr.null Ptr.null 1 1 2 0)
  | _ => none

def sNoW : objects_cache :=
  { cache_sem := 1, lru_sem := 0, hashn := 1, objn := 1, readf := 0, writef := 0,
    mem := memNoW }

/-- Uninitialized memory handed to `chCacheObjectInit`: every cell
exists and holds junk. -/
def memJunk : Ptr → Option oc_object
  | Ptr.null => none
  | _ => some (mkCell Ptr.null Ptr.null Ptr.null Ptr.null 7 7 7 7)

/-- Adjacency in a hash bucket's circular doubly linked list: `b`
follows `a` and the back pointer agrees. -/
def hashLinks (s : objects_cache) (a b : Ptr) : Bool :=
  (readHashNext s a == some b) && (readHashPrev s b == some a)

/-- Adjacency in the LRU circular doubly linked list. -/
def lruLinks (s : objects_cache) (a b : Ptr) : Bool :=
  (readLruNext s a == some b) && (readLruPrev s b == some a)

/-- All consecutive pairs of the list are linked. -/
def linksAll (lk : Ptr → Ptr → Bool) : List Ptr → Bool
  | a :: b :: t => lk a b && linksAll lk (b :: t)
  | _ => true

/-- The hash bucket `b` is the circular doubly linked list holding
exactly the nodes `L`, in order, threaded through its header. -/
def isHashChain (s : objects_cache) (b : Nat) (L : List Ptr) : Bool :=
  linksAll (hashLinks s) (Ptr.hashHdr b :: L ++ [Ptr.hashHdr b])

/-- The LRU is the circular doubly linked list holding exactly the
nodes `L`, in head-to-tail order, threaded through the LRU header. -/
def isLruChain (s : objects_cache) (L : List Ptr) : Bool :=
  linksAll (lruLinks s) (Ptr.lruHdr :: L ++ [Ptr.lruHdr])

/-- The last node of the nonempty pointer sequence `a :: l`. -/
def lastP (a : Ptr) : List Ptr → Ptr
  | [] => a
  | b :: l => lastP b l

/-- The first node of `l`, or `d` when `l` is empty. -/
def headP (d : Ptr) : List Ptr → Ptr
  | [] => d
  | c :: _ => c


end ObjCaches

namespace ObjCaches

/-- C2: refuted.  In state `sMiss` the request `(1,1)` misses; with
assertions compiled out the function performs every documented miss-path
update — it takes object 0 from the LRU tail, removes it from the LRU,
fast-acquires its semaphore, assigns the identity `(1,1)`, sets
`IN_HASH` and inserts it into bucket 0 — but there is no `return`
statement, so the retry loop runs again, finds the freshly inserted
object owned by the caller itself and suspends forever on its own
semaphore.  For every amount of fuel the call never returns normally,
and the state at suspension exhibits all the updates. -/
theorem chCacheGetObject_miss_never_returns :
    (∀ fuel, okVal (chCacheGetObject fuel sMiss 1 1 false) = none) ∧
    (blockedState (chCacheGetObject 3 sMiss 1 1 false)).map (fun s =>
      (readFlags s (Ptr.obj 0), readGroup s (Ptr.obj 0), readKey s (Ptr.obj 0),
       readSem s (Ptr.obj 0), readHashNext s (Ptr.hashHdr 0), readLruNext s Ptr.lruHdr)) =
      some (some OC_FLAG_INHASH, some 1, some 1, some (-1), some (Ptr.obj 0),
        some Ptr.lruHdr) := by
  constructor
  · intro fuel
    match fuel with
    | 0 => rfl
    | 1 => rfl
    | _ + 2 => rfl
  · rfl

/-- C3: refuted.  In state `sHit` the request `(1,1)` hits the unowned
object 0; the function removes it from the LRU, clears `IN_LRU` and
fast-acquires its semaphore, but — there being no `return` — the retry
loop runs another iteration which finds the object owned and suspends
forever on its own semaphore.  For every amount of fuel the call never
returns normally; the suspension state shows the hit-path updates
(flags reduced to `IN_HASH`, semaphore driven to -1 by the second
iteration's wait, LRU empty). -/
theorem chCacheGetObject_hit_unowned_never_returns :
    (∀ fuel, okVal (chCacheGetObject fuel sHit 1 1 true) = none) ∧
    (blockedState (chCacheGetObject 3 sHit 1 1 true)).map (fun s =>
      (readFlags s (Ptr.obj 0), readSem s (Ptr.obj 0),
       readLruNext s Ptr.lruHdr, readLruPrev s Ptr.lruHdr)) =
      some (some OC_FLAG_INHASH, some (-1), some Ptr.lruHdr, some Ptr.lruHdr) := by
  constructor
  · intro fuel
    match fuel with
    | 0 => rfl
    | 1 => rfl
    | _ + 2 => rfl
  · rfl

/-- C5: the code evaluated at the failing input.  Object 0 carries
`ERROR` and has one thread queued on its ownership semaphore
(counter -1).  `chCacheReleaseObjectI` takes the invalidation path and
returns with the semaphore counter still -1: the semaphore is neither
reset nor signalled, so the queued waiter is never woken. -/
theorem chCacheReleaseObjectI_error_leaves_waiter :
    readSem sWait (Ptr.obj 0) = some (-1) ∧
    (okState (chCacheReleaseObjectI sWait (Ptr.obj 0) true)).map (fun s =>
      (readSem s (Ptr.obj 0), readFlags s (Ptr.obj 0))) =
      some (some (-1), some OC_FLAG_INLRU) := by
  constructor <;> rfl

/-- C6: refuted.  In state `sMiss` the lookup for `(1,1)` returns NULL
(first conjunct), and with debug assertions enabled the very next
statement — the assertion placed before the NULL check — reads
`objp->obj_flags` through that NULL pointer, so the call is undefined
behaviour rather than reaching the miss path. -/
theorem chCacheGetObject_assert_derefs_null :
    hash_get sMiss 1 1 3 = CResult.ok none ∧
    chCacheGetObject 3 sMiss 1 1 true = CResult.ub := by
  constructor <;> rfl

/-- C7: refuted.  In state `sStale` the evicted LRU-tail object carries
the documented free-cached flags `IN_LRU|IN_HASH|CACHE_HIT`.  After the
miss path re-indexes it under the new identity `(1,2)` its flags are
`IN_HASH|CACHE_HIT`: the source ors `IN_HASH` into the old flags instead
of overwriting them, so the stale `CACHE_HIT` bit survives the change of
identity. -/
theorem chCacheGetObject_miss_keeps_stale_cachehit :
    (blockedState (chCacheGetObject 3 sStale 1 2 false)).map (fun s =>
      (readFlags s (Ptr.obj 0), readGroup s (Ptr.obj 0), readKey s (Ptr.obj 0))) =
      some (some (OC_FLAG_INHASH ||| OC_FLAG_CACHEHIT), some 1, some 2) := by
  rfl

end ObjCaches

namespace ObjCaches

/-- C4: refuted on the error-release path.  In state `sErr` the
invariant holds before the call (LRU empty, free counter 0, first two
conjuncts).  Releasing the `ERROR`-flagged object 0 inserts it at the
LRU tail, making the LRU list hold one object, but the pool-wide free
counter `lru_sem` is never incremented and stays 0, so afterwards the
counter no longer equals the LRU length. -/
theorem chCacheReleaseObjectI_error_breaks_counter :
    isLruChain sErr [] = true ∧ sErr.lru_sem = 0 ∧
    (okState (chCacheReleaseObjectI sErr (Ptr.obj 0) true)).map (fun s =>
      (isLruChain s [Ptr.obj 0], s.lru_sem)) = some (true, 0) := by
  refine ⟨rfl, rfl, rfl⟩


end ObjCaches

namespace ObjCaches

/-- A successful `writeMem` rewritten through `setMem`. -/
theorem writeMem_eq (s : objects_cache) (p : Ptr) (f : oc_object → oc_object)
    (o : oc_object) (h : s.mem p = some o) :
    writeMem s p f = some (setMem s p (f o)) := by
  simp [writeMem, setMem, h]

/-- A debug assertion whose condition evaluates to true is a no-op in
both build configurations. -/
theorem dbgAssert_some_true {α : Type} (dbg : Bool) (k : CResult α) :
    dbgAssert dbg (some true) k = k := by
  cases dbg <;> rfl

/-- The hash-header loop of `chCacheObjectInit` never terminates when
the table has at least one bucket: its guard compares the never-advanced
pointer against the end of the array, so the same iteration repeats for
every amount of fuel. -/
theorem initHashLoop_spin : ∀ (fuel h : Nat) (s : objects_cache),
    h < s.hashn → (s.mem (Ptr.hashHdr h)).isSome = true →
    initHashLoop fuel h s = CResult.spin := by
  intro fuel
  induction fuel with
  | zero => intro h s _ _; rfl
  | succ n ih =>
    intro h s hh hm
    obtain ⟨o, ho⟩ := Option.isSome_iff_exists.mp hm
    rw [initHashLoop, if_pos hh, writeMem_eq s (Ptr.hashHdr h) _ o ho]
    exact ih h _ hh (by simp [setMem])

/-- C1: refuted (non-termination).  For every configuration accepted by
the debug check (power-of-two `hashn`, `0 < objn ≤ hashn`) and any
memory providing the controller's LRU header and the first hash header,
`chCacheObjectInit` exhausts any amount of fuel inside its first
initialization loop: the loop body never advances `hashp`, so the
function never returns, let alone establishes the initialized state. -/
theorem chCacheObjectInit_spins (fuel : Nat) (dbg : Bool)
    (hashn objn readf writef : Nat) (mem0 : Ptr → Option oc_object)
    (hpow : hashn &&& (hashn - 1) = 0)
    (hobj : 0 < objn) (hle : objn ≤ hashn)
    (hlru : (mem0 Ptr.lruHdr).isSome = true)
    (hh0 : (mem0 (Ptr.hashHdr 0)).isSome = true) :
    chCacheObjectInit fuel dbg hashn objn readf writef mem0 = CResult.spin := by
  have hn : 0 < hashn := lt_of_lt_of_le hobj hle
  obtain ⟨oh, hoh⟩ := Option.isSome_iff_exists.mp hlru
  have hoh' : (mkCache hashn objn readf writef mem0).mem Ptr.lruHdr = some oh := hoh
  rw [chCacheObjectInit]
  have hcond : ((hashn &&& (hashn - 1) == 0) &&
      (decide (0 < objn) && decide (objn ≤ hashn))) = true := by
    simp [hpow, hobj, hle]
  rw [hcond, dbgAssert_some_true]
  have hspin := initHashLoop_spin fuel 0
      (setMem (mkCache hashn objn readf writef mem0) Ptr.lruHdr
        { oh with hash_next := Ptr.null, hash_prev := Ptr.null,
                  lru_next := Ptr.lruHdr, lru_prev := Ptr.lruHdr })
      hn (by simpa [setMem, mkCache, Function.update_apply] using hh0)
  simp only [writeMem_eq _ _ _ oh hoh', hspin]

/-- Witness for C1's theorem at a concrete configuration: a 1-bucket,
1-object cache over junk memory. -/
theorem chCacheObjectInit_spins_witness :
    chCacheObjectInit 5 true 1 1 0 0 memJunk = CResult.spin :=
  chCacheObjectInit_spins 5 true 1 1 0 0 memJunk (by decide) (by decide) (by decide)
    (by decide) (by decide)

end ObjCaches

namespace ObjCaches

/-- C10: confirmed.  Releasing an object with `ERROR` clear and
semaphore counter exactly 0 (no waiters) returns with the entire cache
state untouched: the function reaches neither the invalidation path nor
the signal path and simply returns. -/
theorem chCacheReleaseObjectI_no_waiter_noop (s : objects_cache) (i : Nat)
    (dbg : Bool) (o : oc_object)
    (hmem : s.mem (Ptr.obj i) = some o)
    (hErr : o.obj_flags &&& OC_FLAG_ERROR = 0)
    (hNL : o.obj_flags &&& OC_FLAG_INLRU = 0)
    (hIH : o.obj_flags &&& OC_FLAG_INHASH ≠ 0)
    (hSem : o.obj_sem = 0) :
    chCacheReleaseObjectI s (Ptr.obj i) dbg = CResult.ok s := by
  have hflags : readFlags s (Ptr.obj i) = some o.obj_flags := by
    simp [readFlags, readFld, hmem]
  have hsem : readSem s (Ptr.obj i) = some o.obj_sem := by
    simp [readSem, readFld, hmem]
  have hc1 : (o.obj_flags &&& OC_FLAG_INLRU == 0) = true := by simp [hNL]
  have hc2 : (o.obj_flags &&& OC_FLAG_INHASH != 0) = true := by
    simp [bne_iff_ne, hIH]
  have hc3 : decide (o.obj_sem ≤ 0) = true := by simp [hSem]
  have hcE : (o.obj_flags &&& OC_FLAG_ERROR != 0) = false := by simp [hErr]
  rw [chCacheReleaseObjectI]
  simp only [hflags, hsem, Option.map_some', hc1, hc2, hc3, dbgAssert_some_true]
  simp [hcE, hsem, hSem]

/-- Witness for C10 at a concrete state: releasing the unowned-waiter-free
object of `sNoW` changes nothing. -/
theorem chCacheReleaseObjectI_no_waiter_noop_witness :
    chCacheReleaseObjectI sNoW (Ptr.obj 0) true = CResult.ok sNoW :=
  chCacheReleaseObjectI_no_waiter_noop sNoW 0 true
    (mkCell (Ptr.hashHdr 0) (Ptr.hashHdr 0) Ptr.null Ptr.null 1 1 2 0)
    rfl (by decide) (by decide) (by decide) (by decide)

/-- C9: confirmed.  Releasing an object with `ERROR` clear and a
strictly negative semaphore counter signals the semaphore exactly once
(counter incremented by one, handing ownership to the oldest queued
waiter) and changes nothing else: every other cell of the cache is
untouched and the object keeps its flags, identity, links and hash
membership. -/
theorem chCacheReleaseObjectI_waiter_direct_handoff (s : objects_cache) (i : Nat)
    (dbg : Bool) (o : oc_object)
    (hmem : s.mem (Ptr.obj i) = some o)
    (hErr : o.obj_flags &&& OC_FLAG_ERROR = 0)
    (hNL : o.obj_flags &&& OC_FLAG_INLRU = 0)
    (hIH : o.obj_flags &&& OC_FLAG_INHASH ≠ 0)
    (hSem : o.obj_sem < 0) :
    ∃ s', chCacheReleaseObjectI s (Ptr.obj i) dbg = CResult.ok s' ∧
      readSem s' (Ptr.obj i) = some (o.obj_sem + 1) ∧
      readFlags s' (Ptr.obj i) = some o.obj_flags ∧
      readGroup s' (Ptr.obj i) = some o.obj_group ∧
      readKey s' (Ptr.obj i) = some o.obj_key ∧
      readHashNext s' (Ptr.obj i) = some o.hash_next ∧
      readHashPrev s' (Ptr.obj i) = some o.hash_prev ∧
      readLruNext s' (Ptr.obj i) = some o.lru_next ∧
      readLruPrev s' (Ptr.obj i) = some o.lru_prev ∧
      (∀ q, q ≠ Ptr.obj i → s'.mem q = s.mem q) ∧
      s'.lru_sem = s.lru_sem ∧ s'.cache_sem = s.cache_sem := by
  have hflags : readFlags s (Ptr.obj i) = some o.obj_flags := by
    simp [readFlags, readFld, hmem]
  have hsem : readSem s (Ptr.obj i) = some o.obj_sem := by
    simp [readSem, readFld, hmem]
  have hc1 : (o.obj_flags &&& OC_FLAG_INLRU == 0) = true := by simp [hNL]
  have hc2 : (o.obj_flags &&& OC_FLAG_INHASH != 0) = true := by
    simp [bne_iff_ne, hIH]
  have hc3 : decide (o.obj_sem ≤ 0) = true := by simp [le_of_lt hSem]
  have hcE : (o.obj_flags &&& OC_FLAG_ERROR != 0) = false := by simp [hErr]
  refine ⟨setMem s (Ptr.obj i) { o with obj_sem := o.obj_sem + 1 }, ?_, ?_, ?_, ?_,
    ?_, ?_, ?_, ?_, ?_, ?_, ?_, ?_⟩
  · rw [chCacheReleaseObjectI]
    simp only [hflags, hsem, Option.map_some', hc1, hc2, hc3, dbgAssert_some_true]
    simp [hcE, hsem, hSem, writeMem_eq s (Ptr.obj i) _ o hmem]
  · simp [readSem, readFld, setMem]
  · simp [readFlags, readFld, setMem]
  · simp [readGroup, readFld, setMem]
  · simp [readKey, readFld, setMem]
  · simp [readHashNext, readFld, setMem]
  · simp [readHashPrev, readFld, setMem]
  · simp [readLruNext, readFld, setMem]
  · simp [readLruPrev, readFld, setMem]
  · intro q hq
    simp [setMem, Function.update_noteq hq]
  · simp [setMem]
  · simp [setMem]

/-- Witness for C9 at a concrete state: releasing the owned object of
`sHand` (one queued waiter, counter -1) signals it to 0 and leaves
everything else unchanged. -/
theorem chCacheReleaseObjectI_waiter_direct_handoff_witness :
    ∃ s', chCacheReleaseObjectI sHand (Ptr.obj 0) true = CResult.ok s' ∧
      readSem s' (Ptr.obj 0) = some ((-1) + 1) ∧
      readFlags s' (Ptr.obj 0) = some 2 ∧
      readGroup s' (Ptr.obj 0) = some 1 ∧
      readKey s' (Ptr.obj 0) = some 1 ∧
      readHashNext s' (Ptr.obj 0) = some (Ptr.hashHdr 0) ∧
      readHashPrev s' (Ptr.obj 0) = some (Ptr.hashHdr 0) ∧
      readLruNext s' (Ptr.obj 0) = some Ptr.null ∧
      readLruPrev s' (Ptr.obj 0) = some Ptr.null ∧
      (∀ q, q ≠ Ptr.obj 0 → s'.mem q = sHand.mem q) ∧
      s'.lru_sem = sHand.lru_sem ∧ s'.cache_sem = sHand.cache_sem :=
  chCacheReleaseObjectI_waiter_direct_handoff sHand 0 true
    (mkCell (Ptr.hashHdr 0) (Ptr.hashHdr 0) Ptr.null Ptr.null 1 1 2 (-1))
    rfl (by decide) (by decide) (by decide) (by decide)

end ObjCaches

namespace ObjCaches

theorem linksAll_nil (lk : Ptr → Ptr → Bool) : linksAll lk [] = true := rfl

theorem linksAll_single (lk : Ptr → Ptr → Bool) (a : Ptr) :
    linksAll lk [a] = true := rfl

theorem linksAll_cons₂ (lk : Ptr → Ptr → Bool) (a b : Ptr) (t : List Ptr) :
    linksAll lk (a :: b :: t) = (lk a b && linksAll lk (b :: t)) := rfl

theorem lastP_mem (a : Ptr) : ∀ l : List Ptr, lastP a l ∈ a :: l := by
  intro l
  induction l generalizing a with
  | nil => simp [lastP]
  | cons b t ih =>
    rw [lastP]
    rcases List.mem_cons.mp (ih b) with h | h
    · simp [h]
    · simp [List.mem_cons.mpr (Or.inr h)]

theorem lastP_concat (x : Ptr) : ∀ (l : List Ptr) (a : Ptr), lastP a (l ++ [x]) = x := by
  intro l
  induction l with
  | nil => intro a; rfl
  | cons b t ih => intro a; rw [List.cons_append, lastP, ih]

theorem lastP_not_mem_dropLast (a : Ptr) :
    ∀ l : List Ptr, (a :: l).Nodup → ∀ u ∈ (a :: l).dropLast, u ≠ lastP a l := by
  intro l
  induction l generalizing a with
  | nil => simp
  | cons b t ih =>
    intro hnd u hu
    rw [lastP]
    have hnd' : (b :: t).Nodup := (List.nodup_cons.mp hnd).2
    have hab : a ∉ b :: t := (List.nodup_cons.mp hnd).1
    rcases List.mem_cons.mp (by simpa using hu) with h | h
    · subst h
      intro hc
      exact hab (hc ▸ lastP_mem b t)
    · exact ih b hnd' u h

theorem linksAll_append (lk : Ptr → Ptr → Bool) (x : Ptr) :
    ∀ (l1 l2 : List Ptr),
      linksAll lk (l1 ++ x :: l2)
        = (linksAll lk (l1 ++ [x]) && linksAll lk (x :: l2)) := by
  intro l1
  induction l1 with
  | nil => intro l2; simp [linksAll_single]
  | cons a l1' ih =>
    intro l2
    cases l1' with
    | nil =>
      simp only [List.nil_append, List.cons_append, linksAll_cons₂, linksAll_single,
        Bool.and_true]
    | cons a2 l1'' =>
      simp only [List.cons_append, linksAll_cons₂]
      rw [← List.cons_append, ih l2, Bool.and_assoc]
      simp only [List.cons_append]

theorem lastP_cons (a b : Ptr) (l : List Ptr) : lastP a (b :: l) = lastP b l := rfl

theorem linksAll_concat (lk : Ptr → Ptr → Bool) (y : Ptr) :
    ∀ (l : List Ptr) (a : Ptr),
      linksAll lk (a :: l ++ [y]) = (linksAll lk (a :: l) && lk (lastP a l) y) := by
  intro l
  induction l with
  | nil =>
    intro a
    show (lk a y && true) = (true && lk a y)
    simp
  | cons b t ih =>
    intro a
    simp only [List.cons_append, linksAll_cons₂, lastP_cons, Bool.and_assoc]
    congr 1
    exact ih b

theorem linksAll_frame (lk lk' : Ptr → Ptr → Bool) (p1 p2 n1 n2 : Ptr)
    (hlk : ∀ a b, a ≠ p1 → a ≠ p2 → b ≠ n1 → b ≠ n2 → lk' a b = lk a b) :
    ∀ l : List Ptr,
      (∀ u ∈ l.dropLast, u ≠ p1 ∧ u ≠ p2) →
      (∀ v ∈ l.tail, v ≠ n1 ∧ v ≠ n2) →
      linksAll lk' l = linksAll lk l := by
  intro l
  induction l with
  | nil => intro _ _; rfl
  | cons a t ih =>
    cases t with
    | nil => intro _ _; rfl
    | cons b t' =>
      intro hu hv
      rw [linksAll_cons₂, linksAll_cons₂]
      have ha : a ∈ (a :: b :: t').dropLast := by simp
      have hb : b ∈ (a :: b :: t').tail := by simp
      have h1 := hu a ha
      have h2 := hv b hb
      rw [hlk a b h1.1 h1.2 h2.1 h2.2]
      congr 1
      apply ih
      · intro u hu'
        exact hu u (List.mem_cons_of_mem a hu')
      · intro v hv'
        exact hv v (List.mem_cons_of_mem b hv')

theorem linksAll_head (lk : Ptr → Ptr → Bool) (x y : Ptr) :
    ∀ l2 : List Ptr, linksAll lk (x :: l2 ++ [y]) = true →
      lk x (headP y l2) = true := by
  intro l2
  cases l2 with
  | nil =>
    intro h
    rw [headP]
    have h' : (lk x y && true) = true := h
    simpa using h'
  | cons c t =>
    intro h
    rw [headP]
    have h' : (lk x c && linksAll lk (c :: (t ++ [y]))) = true := h
    simp only [Bool.and_eq_true] at h'
    exact h'.1

end ObjCaches

namespace ObjCaches

/-- Inserting a fresh node `x` at the tail of the LRU: if the new state
differs from the old one only by the tail-insertion links (next pointers
at the old tail and at `x`, prev pointers at `x` and at the header), the
LRU chain grows by `x` at the tail. -/
theorem lru_chain_insert_tail (s s' : objects_cache) (x : Ptr) (L : List Ptr)
    (frameN : ∀ q, q ≠ lastP Ptr.lruHdr L → q ≠ x → readLruNext s' q = readLruNext s q)
    (frameP : ∀ q, q ≠ x → q ≠ Ptr.lruHdr → readLruPrev s' q = readLruPrev s q)
    (jtN : readLruNext s' (lastP Ptr.lruHdr L) = some x)
    (jxP : readLruPrev s' x = some (lastP Ptr.lruHdr L))
    (jxN : readLruNext s' x = some Ptr.lruHdr)
    (jhP : readLruPrev s' Ptr.lruHdr = some x)
    (hchain : linksAll (lruLinks s) (Ptr.lruHdr :: L ++ [Ptr.lruHdr]) = true)
    (hL : L.Nodup) (hhL : Ptr.lruHdr ∉ L) (hxL : x ∉ L) (hxh : x ≠ Ptr.lruHdr) :
    linksAll (lruLinks s') (Ptr.lruHdr :: (L ++ [x]) ++ [Ptr.lruHdr]) = true := by
  have hndL : (Ptr.lruHdr :: L).Nodup := List.nodup_cons.mpr ⟨hhL, hL⟩
  rw [linksAll_concat] at hchain
  simp only [Bool.and_eq_true] at hchain
  obtain ⟨hold, _⟩ := hchain
  rw [linksAll_concat, lastP_concat, ← List.cons_append, linksAll_concat]
  simp only [Bool.and_eq_true]
  refine ⟨⟨?_, ?_⟩, ?_⟩
  · have hframe := linksAll_frame (lruLinks s) (lruLinks s')
      (lastP Ptr.lruHdr L) x x Ptr.lruHdr
      (by
        intro a b ha1 ha2 hb1 hb2
        simp only [lruLinks, frameN a ha1 ha2, frameP b hb1 hb2])
      (Ptr.lruHdr :: L)
      (by
        intro u hu
        refine ⟨lastP_not_mem_dropLast Ptr.lruHdr L hndL u hu, ?_⟩
        intro hc
        subst hc
        rcases List.mem_cons.mp (List.dropLast_subset _ hu) with h | h
        · exact hxh h
        · exact hxL h)
      (by
        intro v hv
        constructor
        · intro hc; subst hc; exact hxL hv
        · intro hc; subst hc; exact hhL hv)
    rw [hframe]
    exact hold
  · simp [lruLinks, jtN, jxP]
  · simp [lruLinks, jxN, jhP]

/-- Unlinking the node `x` from its hash bucket: if the new state
differs from the old one only by the unlink writes (next pointer at
`x`'s predecessor, prev pointer at `x`'s successor), the bucket chain
loses exactly `x`. -/
theorem hash_chain_remove (s s' : objects_cache) (hdr x : Ptr) (A B : List Ptr)
    (frameN : ∀ q, q ≠ lastP hdr A → readHashNext s' q = readHashNext s q)
    (frameP : ∀ q, q ≠ headP hdr B → readHashPrev s' q = readHashPrev s q)
    (jN : readHashNext s' (lastP hdr A) = some (headP hdr B))
    (jP : readHashPrev s' (headP hdr B) = some (lastP hdr A))
    (hchain : linksAll (hashLinks s) ((hdr :: A) ++ x :: (B ++ [hdr])) = true)
    (_hxA : x ∉ A) (hxB : x ∉ B) (hxh : x ≠ hdr)
    (hhA : hdr ∉ A) (hhB : hdr ∉ B)
    (hA : A.Nodup) (hB : B.Nodup) (hAB : ∀ a ∈ A, a ∉ B) :
    linksAll (hashLinks s') ((hdr :: A) ++ (B ++ [hdr])) = true := by
  have hndA : (hdr :: A).Nodup := List.nodup_cons.mpr ⟨hhA, hA⟩
  have hpSmem := lastP_mem hdr A
  rw [linksAll_append] at hchain
  simp only [Bool.and_eq_true] at hchain
  obtain ⟨hleft, hright⟩ := hchain
  rw [linksAll_concat] at hleft
  simp only [Bool.and_eq_true] at hleft
  obtain ⟨holdA, _⟩ := hleft
  cases B with
  | nil =>
    simp only [headP] at jN jP
    rw [List.nil_append, linksAll_concat]
    simp only [Bool.and_eq_true]
    constructor
    · have hframe := linksAll_frame (hashLinks s) (hashLinks s')
        (lastP hdr A) (lastP hdr A) hdr hdr
        (by
          intro a b ha1 _ hb1 _
          simp only [hashLinks, frameN a ha1, frameP b hb1])
        (hdr :: A)
        (by
          intro u hu
          have := lastP_not_mem_dropLast hdr A hndA u hu
          exact ⟨this, this⟩)
        (by
          intro v hv
          have : v ≠ hdr := by intro hc; subst hc; exact hhA hv
          exact ⟨this, this⟩)
      rw [hframe]
      exact holdA
    · simp [hashLinks, jN, jP]
  | cons c B' =>
    simp only [headP] at jN jP
    have hcB : c ∈ c :: B' := List.mem_cons_self c B'
    have hchdr : c ≠ hdr := by intro hc; subst hc; exact hhB hcB
    rw [List.cons_append c B' [hdr], linksAll_append]
    simp only [Bool.and_eq_true]
    constructor
    · rw [linksAll_concat]
      simp only [Bool.and_eq_true]
      constructor
      · have hframe := linksAll_frame (hashLinks s) (hashLinks s')
          (lastP hdr A) (lastP hdr A) c c
          (by
            intro a b ha1 _ hb1 _
            simp only [hashLinks, frameN a ha1, frameP b hb1])
          (hdr :: A)
          (by
            intro u hu
            have := lastP_not_mem_dropLast hdr A hndA u hu
            exact ⟨this, this⟩)
          (by
            intro v hv
            have : v ≠ c := by
              intro hc; subst hc
              exact hAB v hv hcB
            exact ⟨this, this⟩)
        rw [hframe]
        exact holdA
      · simp [hashLinks, jN, jP]
    · have hE3 : linksAll (hashLinks s) (c :: (B' ++ [hdr])) = true := by
        rw [List.cons_append, linksAll_cons₂] at hright
        simp only [Bool.and_eq_true] at hright
        exact hright.2
      have hframe := linksAll_frame (hashLinks s) (hashLinks s')
        (lastP hdr A) (lastP hdr A) c c
        (by
          intro a b ha1 _ hb1 _
          simp only [hashLinks, frameN a ha1, frameP b hb1])
        (c :: (B' ++ [hdr]))
        (by
          intro u hu
          have hu' : u ∈ c :: B' := by
            have hdl : (c :: (B' ++ [hdr])).dropLast = c :: B' := by
              rw [show c :: (B' ++ [hdr]) = (c :: B') ++ [hdr] from rfl]
              exact List.dropLast_concat
            rw [hdl] at hu
            exact hu
          have : u ≠ lastP hdr A := by
            intro hc
            subst hc
            rcases List.mem_cons.mp hpSmem with h | h
            · exact hhB (h ▸ hu')
            · exact hAB _ h hu'
          exact ⟨this, this⟩)
        (by
          intro v hv
          have hv' : v ∈ B' ++ [hdr] := hv
          have : v ≠ c := by
            intro hc
            subst hc
            rcases List.mem_append.mp hv' with h | h
            · exact (List.nodup_cons.mp hB).1 h
            · exact hchdr (by simpa using h)
          exact ⟨this, this⟩)
      rw [hframe]
      exact hE3

end ObjCaches

namespace ObjCaches

theorem readFld_setMem {α : Type} (g : oc_object → α) (s : objects_cache)
    (p : Ptr) (o : oc_object) (q : Ptr) :
    readFld g (setMem s p o) q = if q = p then some (g o) else readFld g s q := by
  by_cases h : q = p <;> simp [readFld, setMem, Function.update_apply, h]

theorem setMem_mem (s : objects_cache) (p : Ptr) (o : oc_object) (q : Ptr) :
    (setMem s p o).mem q = if q = p then some o else s.mem q := by
  by_cases h : q = p <;> simp [setMem, Function.update_apply, h]

theorem setMem_setMem_same (s : objects_cache) (p : Ptr) (a b : oc_object) :
    setMem (setMem s p a) p b = setMem s p b := by
  simp [setMem, Function.update_idem]

/-- Effect of `HASH_REMOVE` on a node `x` whose hash neighbours exist
and are distinct from `x`: the neighbours are relinked around `x`, all
other hash links, all LRU links and the whole memory domain are
untouched. -/
theorem HASH_REMOVE_spec (s : objects_cache) (x : Ptr) (o : oc_object)
    (hx : s.mem x = some o)
    (hp : (s.mem o.hash_prev).isSome = true)
    (hn : (s.mem o.hash_next).isSome = true)
    (hpx : o.hash_prev ≠ x) (hnx : o.hash_next ≠ x) :
    ∃ s', HASH_REMOVE s x = some s' ∧
      readHashNext s' o.hash_prev = some o.hash_next ∧
      readHashPrev s' o.hash_next = some o.hash_prev ∧
      (∀ q, q ≠ o.hash_prev → readHashNext s' q = readHashNext s q) ∧
      (∀ q, q ≠ o.hash_next → readHashPrev s' q = readHashPrev s q) ∧
      (∀ q, readLruNext s' q = readLruNext s q) ∧
      (∀ q, readLruPrev s' q = readLruPrev s q) ∧
      (∀ q, (s'.mem q).isSome = (s.mem q).isSome) ∧
      s'.mem x = s.mem x ∧
      s'.lru_sem = s.lru_sem ∧ s'.cache_sem = s.cache_sem ∧
      s'.hashn = s.hashn ∧ s'.objn = s.objn := by
  obtain ⟨op, hop⟩ := Option.isSome_iff_exists.mp hp
  obtain ⟨onx, honx⟩ := Option.isSome_iff_exists.mp hn
  have e1 : readHashPrev s x = some o.hash_prev := by simp [readHashPrev, readFld, hx]
  have e2 : readHashNext s x = some o.hash_next := by simp [readHashNext, readFld, hx]
  have w1 : writeMem s o.hash_prev (fun r => { r with hash_next := o.hash_next })
      = some (setMem s o.hash_prev { op with hash_next := o.hash_next }) :=
    writeMem_eq s o.hash_prev _ op hop
  have hs1x : (setMem s o.hash_prev { op with hash_next := o.hash_next }).mem x
      = some o := by
    rw [setMem_mem, if_neg (Ne.symm hpx)]
    exact hx
  have e3 : readHashNext (setMem s o.hash_prev { op with hash_next := o.hash_next }) x
      = some o.hash_next := by simp [readHashNext, readFld, hs1x]
  have e4 : readHashPrev (setMem s o.hash_prev { op with hash_next := o.hash_next }) x
      = some o.hash_prev := by simp [readHashPrev, readFld, hs1x]
  by_cases hpn : o.hash_next = o.hash_prev
  · -- predecessor and successor are the same cell (singleton bucket)
    have ho2 : (setMem s o.hash_prev { op with hash_next := o.hash_next }).mem
        o.hash_next = some { op with hash_next := o.hash_next } := by
      rw [setMem_mem, if_pos hpn]
    have w2 := writeMem_eq _ o.hash_next
      (fun r => { r with hash_prev := o.hash_prev }) _ ho2
    refine ⟨_, by rw [HASH_REMOVE]; simp only [e1, Option.some_bind, e2, w1, e3, e4, w2]; rfl,
      ?_, ?_, ?_, ?_, ?_, ?_, ?_, ?_, ?_, ?_, ?_, ?_⟩
    · simp [readHashNext, readFld, setMem_mem, hpn]
    · simp [readHashPrev, readFld, setMem_mem, hpn]
    · intro q hq
      simp [readHashNext, readFld, setMem_mem, hpn, hq]
    · intro q hq
      rw [hpn] at hq
      simp [readHashPrev, readFld, setMem_mem, hpn, hq]
    · intro q
      by_cases hq : q = o.hash_prev
      · subst hq
        simp [readLruNext, readFld, setMem_mem, hpn, hop]
      · simp [readLruNext, readFld, setMem_mem, hpn, hq]
    · intro q
      by_cases hq : q = o.hash_prev
      · subst hq
        simp [readLruPrev, readFld, setMem_mem, hpn, hop]
      · simp [readLruPrev, readFld, setMem_mem, hpn, hq]
    · intro q
      by_cases hq : q = o.hash_prev
      · subst hq
        simp [setMem_mem, hpn, hop]
      · simp [setMem_mem, hpn, hq]
    · simp [setMem_mem, Ne.symm hpx, Ne.symm hnx]
    · simp [setMem]
    · simp [setMem]
    · simp [setMem]
    · simp [setMem]
  · -- distinct neighbour cells
    have hnp : o.hash_prev ≠ o.hash_next := fun h => hpn h.symm
    have ho2 : (setMem s o.hash_prev { op with hash_next := o.hash_next }).mem
        o.hash_next = some onx := by
      rw [setMem_mem, if_neg hpn]
      exact honx
    have w2 := writeMem_eq _ o.hash_next
      (fun r => { r with hash_prev := o.hash_prev }) _ ho2
    refine ⟨_, by rw [HASH_REMOVE]; simp only [e1, Option.some_bind, e2, w1, e3, e4, w2]; rfl,
      ?_, ?_, ?_, ?_, ?_, ?_, ?_, ?_, ?_, ?_, ?_, ?_⟩
    · simp [readHashNext, readFld, setMem_mem, hnp]
    · simp [readHashPrev, readFld, setMem_mem]
    · intro q hq
      by_cases hqn : q = o.hash_next
      · subst hqn
        simp [readHashNext, readFld, setMem_mem, honx]
      · simp [readHashNext, readFld, setMem_mem, hq, hqn]
    · intro q hq
      by_cases hqp : q = o.hash_prev
      · subst hqp
        simp [readHashPrev, readFld, setMem_mem, hq, hop]
      · simp [readHashPrev, readFld, setMem_mem, hq, hqp]
    · intro q
      by_cases hqn : q = o.hash_next
      · subst hqn
        simp [readLruNext, readFld, setMem_mem, hpn, honx]
      · by_cases hqp : q = o.hash_prev
        · subst hqp
          simp [readLruNext, readFld, setMem_mem, hnp, hop]
        · simp [readLruNext, readFld, setMem_mem, hqn, hqp]
    · intro q
      by_cases hqn : q = o.hash_next
      · subst hqn
        simp [readLruPrev, readFld, setMem_mem, hpn, honx]
      · by_cases hqp : q = o.hash_prev
        · subst hqp
          simp [readLruPrev, readFld, setMem_mem, hnp, hop]
        · simp [readLruPrev, readFld, setMem_mem, hqn, hqp]
    · intro q
      by_cases hqn : q = o.hash_next
      · subst hqn
        simp [setMem_mem, hpn, honx]
      · by_cases hqp : q = o.hash_prev
        · subst hqp
          simp [setMem_mem, hnp, hop]
        · simp [setMem_mem, hqn, hqp]
    · simp [setMem_mem, Ne.symm hpx, Ne.symm hnx]
    · simp [setMem]
    · simp [setMem]
    · simp [setMem]
    · simp [setMem]

end ObjCaches

namespace ObjCaches

/-- Effect of `LRU_INSERT_TAIL` on a node `x` distinct from the LRU
header and from the current tail cell `t`: `x` is linked between `t`
and the header, all other LRU links, all hash links and the memory
domain are untouched. -/
theorem LRU_INSERT_TAIL_spec (s : objects_cache) (x t : Ptr) (o : oc_object)
    (hx : s.mem x = some o)
    (hhdr : readLruPrev s Ptr.lruHdr = some t)
    (ht : (s.mem t).isSome = true)
    (hxh : x ≠ Ptr.lruHdr) (htx : t ≠ x) :
    ∃ s', LRU_INSERT_TAIL s x = some s' ∧
      readLruPrev s' x = some t ∧
      readLruNext s' x = some Ptr.lruHdr ∧
      readLruNext s' t = some x ∧
      readLruPrev s' Ptr.lruHdr = some x ∧
      (∀ q, q ≠ t → q ≠ x → readLruNext s' q = readLruNext s q) ∧
      (∀ q, q ≠ x → q ≠ Ptr.lruHdr → readLruPrev s' q = readLruPrev s q) ∧
      (∀ q, readHashNext s' q = readHashNext s q) ∧
      (∀ q, readHashPrev s' q = readHashPrev s q) ∧
      (∀ q, (s'.mem q).isSome = (s.mem q).isSome) ∧
      s'.lru_sem = s.lru_sem ∧ s'.cache_sem = s.cache_sem ∧
      s'.hashn = s.hashn ∧ s'.objn = s.objn := by
  have hhx : Ptr.lruHdr ≠ x := Ne.symm hxh
  have hxt : x ≠ t := Ne.symm htx
  obtain ⟨ot, hot⟩ := Option.isSome_iff_exists.mp ht
  have hhdr' : (s.mem Ptr.lruHdr).map oc_object.lru_prev = some t := hhdr
  obtain ⟨oh, hohd, hohp⟩ := Option.map_eq_some'.mp hhdr'
  have w1 : writeMem s x (fun r => { r with lru_prev := t })
      = some (setMem s x { o with lru_prev := t }) := writeMem_eq s x _ o hx
  have hm1x : (setMem s x { o with lru_prev := t }).mem x
      = some { o with lru_prev := t } := by
    rw [setMem_mem, if_pos rfl]
  have w2 : writeMem (setMem s x { o with lru_prev := t }) x
      (fun r => { r with lru_next := Ptr.lruHdr })
      = some (setMem (setMem s x { o with lru_prev := t }) x
          { o with lru_prev := t, lru_next := Ptr.lruHdr }) :=
    writeMem_eq _ x _ _ hm1x
  have e5 : readLruPrev (setMem (setMem s x { o with lru_prev := t }) x
      { o with lru_prev := t, lru_next := Ptr.lruHdr }) Ptr.lruHdr = some t := by
    simp [readLruPrev, readFld, setMem_mem, hhx, hohd, hohp]
  have hm2t : (setMem (setMem s x { o with lru_prev := t }) x
      { o with lru_prev := t, lru_next := Ptr.lruHdr }).mem t = some ot := by
    simp [setMem_mem, htx, hot]
  have w3 : writeMem (setMem (setMem s x { o with lru_prev := t }) x
      { o with lru_prev := t, lru_next := Ptr.lruHdr }) t
      (fun r => { r with lru_next := x })
      = some (setMem (setMem (setMem s x { o with lru_prev := t }) x
          { o with lru_prev := t, lru_next := Ptr.lruHdr }) t
          { ot with lru_next := x }) := writeMem_eq _ t _ ot hm2t
  by_cases hth : Ptr.lruHdr = t
  · -- the LRU was empty: the tail cell is the header itself
    have hot' : s.mem Ptr.lruHdr = some ot := by rw [hth]; exact hot
    have hm3h : (setMem (setMem (setMem s x { o with lru_prev := t }) x
        { o with lru_prev := t, lru_next := Ptr.lruHdr }) t
        { ot with lru_next := x }).mem Ptr.lruHdr = some { ot with lru_next := x } := by
      rw [setMem_mem, if_pos hth]
    have w4 := writeMem_eq _ Ptr.lruHdr (fun r => { r with lru_prev := x }) _ hm3h
    refine ⟨_, by rw [LRU_INSERT_TAIL]; simp only [hhdr, Option.some_bind, w1, w2, e5, w3, w4]; rfl, ?_, ?_, ?_, ?_, ?_, ?_, ?_, ?_, ?_, ?_, ?_, ?_, ?_⟩
    · simp [readLruPrev, readFld, setMem_mem, hxh, hxt]
    · simp [readLruNext, readFld, setMem_mem, hxh, hxt]
    · simp [readLruNext, readFld, setMem_mem, hth.symm]
    · simp [readLruPrev, readFld, setMem_mem]
    · intro q hq1 hq2
      have hqh : q ≠ Ptr.lruHdr := fun h => hq1 (h.trans hth)
      simp [readLruNext, readFld, setMem_mem, hqh, hq1, hq2]
    · intro q hq1 hq2
      have hqt : q ≠ t := fun h => hq2 (h.trans hth.symm)
      simp [readLruPrev, readFld, setMem_mem, hq1, hq2, hqt]
    · intro q
      by_cases hqh : q = Ptr.lruHdr
      · subst hqh
        simp [readHashNext, readFld, setMem_mem, hth, hot', hot]
      · by_cases hqx : q = x
        · subst hqx
          simp [readHashNext, readFld, setMem_mem, hqh, hxt, hx]
        · have hqt : q ≠ t := fun h => hqh (h.trans hth.symm)
          simp [readHashNext, readFld, setMem_mem, hqh, hqx, hqt]
    · intro q
      by_cases hqh : q = Ptr.lruHdr
      · subst hqh
        simp [readHashPrev, readFld, setMem_mem, hth, hot', hot]
      · by_cases hqx : q = x
        · subst hqx
          simp [readHashPrev, readFld, setMem_mem, hqh, hxt, hx]
        · have hqt : q ≠ t := fun h => hqh (h.trans hth.symm)
          simp [readHashPrev, readFld, setMem_mem, hqh, hqx, hqt]
    · intro q
      by_cases hqh : q = Ptr.lruHdr
      · subst hqh
        simp [setMem_mem, hth, hot', hot]
      · by_cases hqx : q = x
        · subst hqx
          simp [setMem_mem, hqh, hxt, hx]
        · have hqt : q ≠ t := fun h => hqh (h.trans hth.symm)
          simp [setMem_mem, hqh, hqx, hqt]
    · simp [setMem]
    · simp [setMem]
    · simp [setMem]
    · simp [setMem]
  · -- nonempty LRU: the tail cell is a distinct node
    have hht : Ptr.lruHdr ≠ t := hth
    have hm3h : (setMem (setMem (setMem s x { o with lru_prev := t }) x
        { o with lru_prev := t, lru_next := Ptr.lruHdr }) t
        { ot with lru_next := x }).mem Ptr.lruHdr = some oh := by
      simp [setMem_mem, hth, hhx, hohd]
    have w4 := writeMem_eq _ Ptr.lruHdr (fun r => { r with lru_prev := x }) _ hm3h
    refine ⟨_, by rw [LRU_INSERT_TAIL]; simp only [hhdr, Option.some_bind, w1, w2, e5, w3, w4]; rfl, ?_, ?_, ?_, ?_, ?_, ?_, ?_, ?_, ?_, ?_, ?_, ?_, ?_⟩
    · simp [readLruPrev, readFld, setMem_mem, hxh, hxt]
    · simp [readLruNext, readFld, setMem_mem, hxh, hxt]
    · simp [readLruNext, readFld, setMem_mem, Ne.symm hht]
    · simp [readLruPrev, readFld, setMem_mem]
    · intro q hq1 hq2
      by_cases hqh : q = Ptr.lruHdr
      · subst hqh
        simp [readLruNext, readFld, setMem_mem, hq1, hq2, hohd]
      · simp [readLruNext, readFld, setMem_mem, hqh, hq1, hq2]
    · intro q hq1 hq2
      by_cases hqt : q = t
      · subst hqt
        simp [readLruPrev, readFld, setMem_mem, hq1, hq2, hot]
      · simp [readLruPrev, readFld, setMem_mem, hq1, hq2, hqt]
    · intro q
      by_cases hqh : q = Ptr.lruHdr
      · subst hqh
        simp [readHashNext, readFld, setMem_mem, hht, hhx, hohd]
      · by_cases hqt : q = t
        · subst hqt
          simp [readHashNext, readFld, setMem_mem, hqh, htx, hot]
        · by_cases hqx : q = x
          · subst hqx
            simp [readHashNext, readFld, setMem_mem, hqh, hqt, hx]
          · simp [readHashNext, readFld, setMem_mem, hqh, hqt, hqx]
    · intro q
      by_cases hqh : q = Ptr.lruHdr
      · subst hqh
        simp [readHashPrev, readFld, setMem_mem, hht, hhx, hohd]
      · by_cases hqt : q = t
        · subst hqt
          simp [readHashPrev, readFld, setMem_mem, hqh, htx, hot]
        · by_cases hqx : q = x
          · subst hqx
            simp [readHashPrev, readFld, setMem_mem, hqh, hqt, hx]
          · simp [readHashPrev, readFld, setMem_mem, hqh, hqt, hqx]
    · intro q
      by_cases hqh : q = Ptr.lruHdr
      · subst hqh
        simp [setMem_mem, hht, hhx, hohd]
      · by_cases hqt : q = t
        · subst hqt
          simp [setMem_mem, hqh, htx, hot]
        · by_cases hqx : q = x
          · subst hqx
            simp [setMem_mem, hqh, hqt, hx]
          · simp [setMem_mem, hqh, hqt, hqx]
    · simp [setMem]
    · simp [setMem]
    · simp [setMem]
    · simp [setMem]

end ObjCaches

namespace ObjCaches

/-- C8: confirmed.  Releasing an object with `ERROR` set (and the
debug-checked preconditions holding: not in the LRU, in the hash index,
semaphore counter at most 0) removes it from its hash bucket, appends it
at the tail of the LRU list, resets its flags to exactly `IN_LRU` and
clears its identity.  The hash bucket is described by the node list
`A ++ [obj i] ++ B` threaded through header `b`, and the LRU by the node
list `L`; afterwards the bucket holds `A ++ B` and the LRU `L ++ [obj i]`. -/
theorem chCacheReleaseObjectI_error_invalidates
    (s : objects_cache) (i : Nat) (dbg : Bool) (o : oc_object)
    (b : Nat) (A B L : List Ptr)
    (hmem : s.mem (Ptr.obj i) = some o)
    (hErr : o.obj_flags &&& OC_FLAG_ERROR ≠ 0)
    (hNL : o.obj_flags &&& OC_FLAG_INLRU = 0)
    (hIH : o.obj_flags &&& OC_FLAG_INHASH ≠ 0)
    (hSem : o.obj_sem ≤ 0)
    (hHash : isHashChain s b (A ++ Ptr.obj i :: B) = true)
    (hNdH : (Ptr.hashHdr b :: A ++ Ptr.obj i :: B).Nodup)
    (hLru : isLruChain s L = true)
    (hNdL : (Ptr.lruHdr :: L).Nodup)
    (hxL : Ptr.obj i ∉ L) :
    ∃ s', chCacheReleaseObjectI s (Ptr.obj i) dbg = CResult.ok s' ∧
      readFlags s' (Ptr.obj i) = some OC_FLAG_INLRU ∧
      readGroup s' (Ptr.obj i) = some 0 ∧
      readKey s' (Ptr.obj i) = some 0 ∧
      isHashChain s' b (A ++ B) = true ∧
      isLruChain s' (L ++ [Ptr.obj i]) = true := by
  have hxh : Ptr.obj i ≠ Ptr.hashHdr b := by simp
  have hxh2 : Ptr.obj i ≠ Ptr.lruHdr := by simp
  -- digest the no-duplication hypotheses
  rw [List.nodup_append] at hNdH
  obtain ⟨h1, h2, h3⟩ := hNdH
  obtain ⟨hhA, hA⟩ := List.nodup_cons.mp h1
  obtain ⟨hxB, hB⟩ := List.nodup_cons.mp h2
  have hxA : Ptr.obj i ∉ A := fun hmA =>
    h3 (List.mem_cons_of_mem _ hmA) (List.mem_cons_self _ _)
  have hhB : Ptr.hashHdr b ∉ B := fun hmB =>
    h3 (List.mem_cons_self _ _) (List.mem_cons_of_mem _ hmB)
  have hAB : ∀ a ∈ A, a ∉ B := fun a ha hb =>
    h3 (List.mem_cons_of_mem _ ha) (List.mem_cons_of_mem _ hb)
  obtain ⟨hhL, hL⟩ := List.nodup_cons.mp hNdL
  -- decompose the hash chain around the object
  rw [isHashChain] at hHash
  have hlist : (Ptr.hashHdr b :: (A ++ Ptr.obj i :: B)) ++ [Ptr.hashHdr b]
      = (Ptr.hashHdr b :: A) ++ Ptr.obj i :: (B ++ [Ptr.hashHdr b]) := by simp
  rw [hlist] at hHash
  have hsplit := hHash
  rw [linksAll_append] at hsplit
  simp only [Bool.and_eq_true] at hsplit
  obtain ⟨hleft, hright⟩ := hsplit
  rw [linksAll_concat] at hleft
  simp only [Bool.and_eq_true] at hleft
  obtain ⟨_, hlinkPS⟩ := hleft
  have hlinkNS := linksAll_head (hashLinks s) (Ptr.obj i) (Ptr.hashHdr b) B hright
  simp only [hashLinks, Bool.and_eq_true, beq_iff_eq] at hlinkPS hlinkNS
  -- identify the object's hash neighbours
  have eprev : readHashPrev s (Ptr.obj i) = some o.hash_prev := by
    simp [readHashPrev, readFld, hmem]
  have enext : readHashNext s (Ptr.obj i) = some o.hash_next := by
    simp [readHashNext, readFld, hmem]
  have hop : o.hash_prev = lastP (Ptr.hashHdr b) A :=
    Option.some.inj (eprev.symm.trans hlinkPS.2)
  have hnn : o.hash_next = headP (Ptr.hashHdr b) B :=
    Option.some.inj (enext.symm.trans hlinkNS.1)
  have hPSr := hlinkPS.1
  rw [readHashNext, readFld] at hPSr
  obtain ⟨aPS, haPS, _⟩ := Option.map_eq_some'.mp hPSr
  have hmemPS : (s.mem (lastP (Ptr.hashHdr b) A)).isSome = true := by rw [haPS]; rfl
  have hNSr := hlinkNS.2
  rw [readHashPrev, readFld] at hNSr
  obtain ⟨aNS, haNS, _⟩ := Option.map_eq_some'.mp hNSr
  have hmemNS : (s.mem (headP (Ptr.hashHdr b) B)).isSome = true := by rw [haNS]; rfl
  have hpSx : lastP (Ptr.hashHdr b) A ≠ Ptr.obj i := by
    intro h
    rcases List.mem_cons.mp (lastP_mem (Ptr.hashHdr b) A) with hc | hc
    · exact absurd (h.symm.trans hc) (by simp)
    · exact hxA (h ▸ hc)
  have hnSx : headP (Ptr.hashHdr b) B ≠ Ptr.obj i := by
    cases B with
    | nil => simp [headP]
    | cons c B' =>
      rw [headP]
      intro h
      exact hxB (by rw [← h]; exact List.mem_cons_self c B')
  -- run HASH_REMOVE
  obtain ⟨s1, hrem, jN0, jP0, frN0, frP0, luN0, luP0, dom0, memx0, lsem0, _, _, _⟩ :=
    HASH_REMOVE_spec s (Ptr.obj i) o hmem (by rw [hop]; exact hmemPS)
      (by rw [hnn]; exact hmemNS) (by rw [hop]; exact hpSx) (by rw [hnn]; exact hnSx)
  simp only [hop, hnn] at jN0 jP0 frN0 frP0
  -- decompose the LRU chain
  rw [isLruChain] at hLru
  have hLru2 := hLru
  rw [linksAll_concat] at hLru2
  simp only [Bool.and_eq_true] at hLru2
  obtain ⟨_, hlinkT⟩ := hLru2
  simp only [lruLinks, Bool.and_eq_true, beq_iff_eq] at hlinkT
  have hTr := hlinkT.1
  rw [readLruNext, readFld] at hTr
  obtain ⟨aT, haT, _⟩ := Option.map_eq_some'.mp hTr
  have hmemT : (s.mem (lastP Ptr.lruHdr L)).isSome = true := by rw [haT]; rfl
  have htx : lastP Ptr.lruHdr L ≠ Ptr.obj i := by
    intro h
    rcases List.mem_cons.mp (lastP_mem Ptr.lruHdr L) with hc | hc
    · exact absurd (h.symm.trans hc) (by simp)
    · exact hxL (h ▸ hc)
  -- run LRU_INSERT_TAIL on the state after removal
  obtain ⟨s2, hins, jxP, jxN, jtN, jhP, frN1, frP1, hN1, hP1, dom1, lsem1, _, _, _⟩ :=
    LRU_INSERT_TAIL_spec s1 (Ptr.obj i) (lastP Ptr.lruHdr L) o
      (by rw [memx0]; exact hmem)
      (by rw [luP0 Ptr.lruHdr]; exact hlinkT.2)
      (by rw [dom0]; exact hmemT) hxh2 htx
  -- the final flags/identity write
  have hmem2x : ∃ o2, s2.mem (Ptr.obj i) = some o2 := by
    apply Option.isSome_iff_exists.mp
    rw [dom1, dom0, hmem]
    rfl
  obtain ⟨o2, ho2x⟩ := hmem2x
  have wfin := writeMem_eq s2 (Ptr.obj i)
    (fun r => { r with obj_flags := OC_FLAG_INLRU, obj_group := 0, obj_key := 0 })
    o2 ho2x
  -- the assertion conditions
  have hflagsR : readFlags s (Ptr.obj i) = some o.obj_flags := by
    simp [readFlags, readFld, hmem]
  have hsemR : readSem s (Ptr.obj i) = some o.obj_sem := by
    simp [readSem, readFld, hmem]
  have hc1 : (o.obj_flags &&& OC_FLAG_INLRU == 0) = true := by simp [hNL]
  have hc2 : (o.obj_flags &&& OC_FLAG_INHASH != 0) = true := by simp [bne_iff_ne, hIH]
  have hc3 : decide (o.obj_sem ≤ 0) = true := by simp [hSem]
  have hcE : (o.obj_flags &&& OC_FLAG_ERROR != 0) = true := by simp [bne_iff_ne, hErr]
  -- frames of the final write
  have fwN : ∀ q, readHashNext (setMem s2 (Ptr.obj i)
      { o2 with obj_flags := OC_FLAG_INLRU, obj_group := 0, obj_key := 0 }) q
      = readHashNext s2 q := by
    intro q
    by_cases hqx : q = Ptr.obj i
    · subst hqx; simp [readHashNext, readFld, setMem_mem, ho2x]
    · simp [readHashNext, readFld, setMem_mem, hqx]
  have fwP : ∀ q, readHashPrev (setMem s2 (Ptr.obj i)
      { o2 with obj_flags := OC_FLAG_INLRU, obj_group := 0, obj_key := 0 }) q
      = readHashPrev s2 q := by
    intro q
    by_cases hqx : q = Ptr.obj i
    · subst hqx; simp [readHashPrev, readFld, setMem_mem, ho2x]
    · simp [readHashPrev, readFld, setMem_mem, hqx]
  have fwLN : ∀ q, readLruNext (setMem s2 (Ptr.obj i)
      { o2 with obj_flags := OC_FLAG_INLRU, obj_group := 0, obj_key := 0 }) q
      = readLruNext s2 q := by
    intro q
    by_cases hqx : q = Ptr.obj i
    · subst hqx; simp [readLruNext, readFld, setMem_mem, ho2x]
    · simp [readLruNext, readFld, setMem_mem, hqx]
  have fwLP : ∀ q, readLruPrev (setMem s2 (Ptr.obj i)
      { o2 with obj_flags := OC_FLAG_INLRU, obj_group := 0, obj_key := 0 }) q
      = readLruPrev s2 q := by
    intro q
    by_cases hqx : q = Ptr.obj i
    · subst hqx; simp [readLruPrev, readFld, setMem_mem, ho2x]
    · simp [readLruPrev, readFld, setMem_mem, hqx]
  refine ⟨setMem s2 (Ptr.obj i)
      { o2 with obj_flags := OC_FLAG_INLRU, obj_group := 0, obj_key := 0 },
    ?_, ?_, ?_, ?_, ?_, ?_⟩
  · rw [chCacheReleaseObjectI]
    simp only [hflagsR, hsemR, Option.map_some', hc1, hc2, hc3, dbgAssert_some_true,
      hcE, eq_self_iff_true, if_true, hrem, hins, wfin]
  · simp [readFlags, readFld, setMem_mem]
  · simp [readGroup, readFld, setMem_mem]
  · simp [readKey, readFld, setMem_mem]
  · rw [isHashChain]
    have hlist2 : (Ptr.hashHdr b :: (A ++ B)) ++ [Ptr.hashHdr b]
        = (Ptr.hashHdr b :: A) ++ (B ++ [Ptr.hashHdr b]) := by simp
    rw [hlist2]
    apply hash_chain_remove s _ (Ptr.hashHdr b) (Ptr.obj i) A B
      (fun q hq => by rw [fwN, hN1, frN0 q hq])
      (fun q hq => by rw [fwP, hP1, frP0 q hq])
      (by rw [fwN, hN1]; exact jN0)
      (by rw [fwP, hP1]; exact jP0)
      hHash hxA hxB hxh hhA hhB hA hB hAB
  · rw [isLruChain]
    apply lru_chain_insert_tail s _ (Ptr.obj i) L
      (fun q hq1 hq2 => by rw [fwLN, frN1 q hq1 hq2, luN0])
      (fun q hq1 hq2 => by rw [fwLP, frP1 q hq1 hq2, luP0])
      (by rw [fwLN]; exact jtN)
      (by rw [fwLP]; exact jxP)
      (by rw [fwLN]; exact jxN)
      (by rw [fwLP]; exact jhP)
      hLru hL hhL hxL hxh2

end ObjCaches

namespace ObjCaches

/-- Witness for C8 at a concrete state: releasing the `ERROR`-flagged,
owned object of `sErr` (alone in bucket 0, LRU empty) moves it from the
bucket to the LRU tail with flags `IN_LRU` and cleared identity. -/
theorem chCacheReleaseObjectI_error_invalidates_witness :
    ∃ s', chCacheReleaseObjectI sErr (Ptr.obj 0) true = CResult.ok s' ∧
      readFlags s' (Ptr.obj 0) = some OC_FLAG_INLRU ∧
      readGroup s' (Ptr.obj 0) = some 0 ∧
      readKey s' (Ptr.obj 0) = some 0 ∧
      isHashChain s' 0 ([] ++ []) = true ∧
      isLruChain s' ([] ++ [Ptr.obj 0]) = true :=
  chCacheReleaseObjectI_error_invalidates sErr 0 true
    (mkCell (Ptr.hashHdr 0) (Ptr.hashHdr 0) Ptr.null Ptr.null 1 1 10 0)
    0 [] [] [] rfl (by decide) (by decide) (by decide) (by decide)
    (by decide) (by decide) (by decide) (by decide) (by decide)

end ObjCaches
